import Mathlib

/-!
Verification of the rendering-order core and extended-precision numeric core
of the OpenGMK runtime (files `src/math.rs`, `src/game/draw.rs`,
`src/gml/runtime.rs`).

Modelling conventions (shallow embedding):
* `Real` (a transparent wrapper over a hardware float, with 80-bit x87
  intermediate arithmetic) is modelled as `ℚ`.  Arithmetic is modelled as
  exact rational arithmetic — the idealisation of extended precision.
  Floating-point *literals* appearing in the source and in its test suite
  are embedded as the exact rational value of the nearest IEEE-754 double,
  so that representation error (the thing the tolerant comparison exists to
  absorb) is preserved by the model.
* Machine integers are `ℤ` (or `ℕ` for unsigned values), with the wrapping
  and saturating casts of the source written out explicitly.
* The renderer, the GML executor, the input manager and the asset
  repository are external collaborators; their invocations are reified as
  an `Action` trace, and fallible GML dispatch is an oracle field of the
  `Game` record.  A Rust panic is modelled as a distinguished failure.
-/

namespace GM8

/-! ## `Real` numeric core (`src/math.rs`) -/

/-- The lenience between values when compared: `CMP_EPSILON = 1e-13` in
`src/math.rs`, embedded as the exact rational 10⁻¹³. -/
def CMP_EPSILON : ℚ := 1 / 10 ^ 13

/-- Embedding of `impl PartialEq for Real`:
`(*self - *other).0.abs() < CMP_EPSILON`. -/
def real_eq (a b : ℚ) : Bool := decide (|a - b| < CMP_EPSILON)

/-- Embedding of `impl PartialOrd for Real`: the three-way branch on
`sub = *self - *other`, returning `Some` in every branch. -/
def real_cmp_opt (a b : ℚ) : Option Ordering :=
  if CMP_EPSILON ≤ a - b then some Ordering.gt
  else if a - b ≤ -CMP_EPSILON then some Ordering.lt
  else some Ordering.eq

/-- The total comparison used by the draw pass (`inst.depth.get().cmp(..)`);
the unwrap of `real_cmp_opt`, which never returns `none`. -/
def real_cmp (a b : ℚ) : Ordering := (real_cmp_opt a b).getD Ordering.eq

/-- Rust `a < b` derived from `PartialOrd`: holds iff the comparison is
`Less`. -/
def real_lt (a b : ℚ) : Bool := real_cmp_opt a b == some Ordering.lt

/-- Rust `a <= b` derived from `PartialOrd`: `Less` or `Equal`. -/
def real_le (a b : ℚ) : Bool :=
  real_cmp_opt a b == some Ordering.lt || real_cmp_opt a b == some Ordering.eq

/-- Rust `a > b` derived from `PartialOrd`: holds iff the comparison is
`Greater`. -/
def real_gt (a b : ℚ) : Bool := real_cmp_opt a b == some Ordering.gt

/-- Rust `a >= b` derived from `PartialOrd`: `Greater` or `Equal`. -/
def real_ge (a b : ℚ) : Bool :=
  real_cmp_opt a b == some Ordering.gt || real_cmp_opt a b == some Ordering.eq

/-- The IEEE-754 double nearest to the source literal `0.1`,
namely 3602879701896397 × 2⁻⁵⁵. -/
def lit_0_1 : ℚ := 3602879701896397 / 2 ^ 55

/-- The IEEE-754 double nearest to the source literal `0.2`,
namely 3602879701896397 × 2⁻⁵⁴. -/
def lit_0_2 : ℚ := 3602879701896397 / 2 ^ 54

/-- The IEEE-754 double nearest to the source literal `0.3`,
namely 5404319552844595 × 2⁻⁵⁴. -/
def lit_0_3 : ℚ := 5404319552844595 / 2 ^ 54

/-- Iterated sum of the double literal `0.2`: `sum02 n` is the value
obtained after summing `0.2` `n` times starting from zero. -/
def sum02 : ℕ → ℚ
  | 0 => 0
  | n + 1 => sum02 n + lit_0_2

/-- Embedding of the `prec_19` test loop of `src/math.rs`: starting from
`x`, repeatedly `x += 0.2`; succeed (`true`) when `x == 19.0` under the
tolerant equality, abort (`false`, the test's panic) if `x > 19.0` first or
if the fuel runs out. -/
def prec_19_loop : ℕ → ℚ → Bool
  | 0, _ => false
  | fuel + 1, x =>
    let x2 := x + lit_0_2
    if real_eq x2 19 then true
    else if real_gt x2 19 then false
    else prec_19_loop fuel x2

/-- Embedding of `Real::round64`: the x87 `fistp` instruction in its default
rounding mode, i.e. round to nearest with ties to even. -/
def round64 (x : ℚ) : ℤ :=
  if x - ⌊x⌋ < 1 / 2 then ⌊x⌋
  else if 1 / 2 < x - ⌊x⌋ then ⌊x⌋ + 1
  else if ⌊x⌋ % 2 = 0 then ⌊x⌋ else ⌊x⌋ + 1

/-- Reinterpretation of the low 32 bits of an `i64` as an `i32`: the Rust
expression `(m & u32::max_value() as i64) as i32`. -/
def i64_low32_as_i32 (m : ℤ) : ℤ :=
  if m % 2 ^ 32 < 2 ^ 31 then m % 2 ^ 32 else m % 2 ^ 32 - 2 ^ 32

/-- Embedding of `Real::round`:
`(self.round64() & u32::max_value() as i64) as i32`. -/
def round (x : ℚ) : ℤ := i64_low32_as_i32 (round64 x)

/-! ## Machine-integer casts used by the draw pass -/

/-- Rust `as usize` on a signed value (64-bit platform): two's-complement
reinterpretation into `[0, 2⁶⁴)`. -/
def as_usize (n : ℤ) : ℕ := (n % 2 ^ 64).toNat

/-- Rust wrapping cast to `i32` (e.g. `sprite.frames.len() as i32`). -/
def as_i32 (n : ℤ) : ℤ := i64_low32_as_i32 n

/-- Rust saturating float-to-int cast `f64 as i32` applied to an integer. -/
def sat_i32 (n : ℤ) : ℤ := max (-(2 ^ 31)) (min (2 ^ 31 - 1) n)

/-! ## Draw pipeline data model (`src/game/draw.rs`) -/

/-- The `Halign` enum of `src/game/draw.rs`. -/
inductive Halign where
  | left
  | middle
  | right

/-- The `Valign` enum of `src/game/draw.rs`. -/
inductive Valign where
  | top
  | middle
  | bottom

/-- A sprite frame holding an opaque atlas reference. -/
structure Frame where
  atlas_ref : ℕ

/-- Sprite asset: an ordered sequence of frames (zero frames is legal). -/
structure Sprite where
  frames : List Frame

/-- Background asset: an optional atlas reference. -/
structure BackgroundAsset where
  atlas_ref : Option ℕ

/-- Scene instance: the fields read by the default draw action and the
merge loop. -/
structure Instance where
  object_index : ℤ
  sprite_index : ℤ
  image_index : ℚ
  image_xscale : ℚ
  image_yscale : ℚ
  image_angle : ℚ
  image_blend : ℤ
  image_alpha : ℚ
  x : ℚ
  y : ℚ
  depth : ℚ

/-- Scene tile: a sub-rectangle of a background asset with a transform. -/
structure Tile where
  background_index : ℤ
  tile_x : ℤ
  tile_y : ℤ
  width : ℤ
  height : ℤ
  x : ℚ
  y : ℚ
  xscale : ℚ
  yscale : ℚ
  blend : ℤ
  alpha : ℚ
  depth : ℚ

/-- Background/foreground scene layer (`self.backgrounds` in the source). -/
structure BgLayer where
  background_id : ℤ
  x_offset : ℚ
  y_offset : ℚ
  xscale : ℚ
  yscale : ℚ
  blend : ℤ
  alpha : ℚ
  visible : Bool
  is_foreground : Bool

/-- Viewport descriptor. -/
structure View where
  source_x : ℤ
  source_y : ℤ
  source_w : ℤ
  source_h : ℤ
  port_x : ℤ
  port_y : ℤ
  port_w : ℤ
  port_h : ℤ
  angle : ℚ
  visible : Bool

/-- Per-codepoint glyph data of a bitmap font
(`Character { x, y, width, height, offset, distance }`). -/
structure FontChar where
  x : ℕ
  y : ℕ
  width : ℕ
  height : ℕ
  offset : ℕ
  distance : ℕ

/-- Font asset: a glyph atlas plus a codepoint-keyed glyph table. -/
structure Font where
  atlas_ref : ℕ
  chars : List (ℕ × FontChar)

/-- Modelled from the spec: the font's `get_char` — glyph lookup by
codepoint, which may return absent ("a glyph not in the font"). -/
def Font.get_char (f : Font) (c : ℕ) : Option FontChar := f.chars.lookup c

/-- The GML executor's error type (`gml::Error { reason }` in
`src/gml/runtime.rs`). -/
structure GmlError where
  reason : String

/-- Failure of a draw computation: a propagated GML error (`gml::Result`'s
error arm) or a Rust panic. -/
inductive Failure where
  | gml (e : GmlError)
  | panic

/-- One observable call to an external collaborator, in submission order:
renderer calls, GML draw-event dispatches, and the input-manager clear.
The `set_view` angle is recorded in degrees; the `to_radians` scaling at
the renderer boundary is an irrational factor outside the rational model
and is referenced by no claim. -/
inductive Action where
  | set_view (window_w window_h unscaled_w unscaled_h : ℕ)
      (src_x src_y src_w src_h : ℤ) (angle : ℚ)
      (port_x port_y port_w port_h : ℤ)
  | draw_sprite (atlas_ref : ℕ) (x y xscale yscale angle : ℚ)
      (blend : ℤ) (alpha : ℚ)
  | draw_sprite_partial (atlas_ref : ℕ) (part_x part_y part_w part_h : ℤ)
      (x y xscale yscale angle : ℚ) (blend : ℤ) (alpha : ℚ)
  | run_draw_event (object_index : ℤ)
  | finish (window_w window_h : ℕ)
  | clear_presses

/-- The game state read by one frame's draw pass.  The GML executor is an
external collaborator: `draw_event_result` is its outcome oracle for the
DRAW event of a custom-draw object (`none` = the scripted event ran to
completion). -/
structure Game where
  assets_sprites : List (Option Sprite)
  assets_backgrounds : List (Option BackgroundAsset)
  custom_draw_objects : List ℤ
  draw_event_result : ℤ → Option GmlError
  instance_list : List Instance
  tile_list : List Tile
  backgrounds : List BgLayer
  views_enabled : Bool
  views : List View
  room_width : ℤ
  room_height : ℤ
  window_width : ℕ
  window_height : ℕ
  unscaled_width : ℕ
  unscaled_height : ℕ
  draw_font : Option Font
  draw_halign : Halign
  draw_valign : Valign
  draw_colour : ℕ
  draw_alpha : ℚ

/-- Embedding of the nested `draw_instance` function of `draw_view`.  The
`instance_list.get(idx)` lookup (whose `None` arm is
`unreachable_unchecked`) is elided: the caller hands over the instance
itself.  The remainder operation `floor(image_index) as i32 % frames.len()
as i32` is a Rust `%` on `i32`, which panics when the divisor is zero (and
on `i32::MIN % -1` overflow); both panic conditions are modelled
explicitly. -/
def draw_instance (g : Game) (inst : Instance) : Except Failure (List Action) :=
  if inst.object_index ∈ g.custom_draw_objects then
    match g.draw_event_result inst.object_index with
    | some e => Except.error (Failure.gml e)
    | none => Except.ok [Action.run_draw_event inst.object_index]
  else
    match g.assets_sprites.get? (as_usize inst.sprite_index) with
    | some (some sprite) =>
      if as_i32 sprite.frames.length = 0 ∨
          (sat_i32 ⌊inst.image_index⌋ = -(2 ^ 31) ∧ as_i32 sprite.frames.length = -1) then
        Except.error Failure.panic
      else
        match sprite.frames.get?
            (as_usize (Int.tmod (sat_i32 ⌊inst.image_index⌋) (as_i32 sprite.frames.length))) with
        | some f1 =>
          Except.ok [Action.draw_sprite f1.atlas_ref inst.x inst.y inst.image_xscale
            inst.image_yscale inst.image_angle inst.image_blend inst.image_alpha]
        | none => Except.ok []
    | _ => Except.ok []

/-- Embedding of the nested `draw_tile` function of `draw_view` (the tile
lookup by index is elided the same way as for `draw_instance`). -/
def draw_tile (g : Game) (tile : Tile) : List Action :=
  match g.assets_backgrounds.get? (as_usize tile.background_index) with
  | some (some background) =>
    match background.atlas_ref with
    | some atlas =>
      [Action.draw_sprite_partial atlas tile.tile_x tile.tile_y tile.width tile.height
        tile.x tile.y tile.xscale tile.yscale 0 tile.blend tile.alpha]
    | none => []
  | _ => []

/-- Modelled from the spec: the asset repository's `get_asset` ("index-keyed
lookup returning optional" assets; absent lookups are silent). -/
def get_asset (l : List (Option BackgroundAsset)) (id : ℤ) : Option BackgroundAsset :=
  if 0 ≤ id then (l.get? id.toNat).join else none

/-- One background/foreground compositor pass of `draw_view`: filter the
scene layers by `visible` and the requested `is_foreground` flag, and emit
one `draw_sprite` per layer with a resolvable atlas. -/
def draw_backgrounds_pass (g : Game) (foreground : Bool) : List Action :=
  ((g.backgrounds.filter (fun b => b.visible && b.is_foreground == foreground)).map
    (fun b =>
      match get_asset g.assets_backgrounds b.background_id with
      | some bg =>
        match bg.atlas_ref with
        | some atlas =>
          [Action.draw_sprite atlas b.x_offset b.y_offset b.xscale b.yscale 0 b.blend b.alpha]
        | none => []
      | none => [])).flatten

/-- Embedding of the scene-body merge loop of `draw_view`, operating on the
draw-sorted instance and tile streams.  Returns the renderer calls made (in
submission order, including those before a failure) together with the
propagated failure, if any. -/
def scene_body (g : Game) : List Instance → List Tile → List Action × Option Failure
  | inst :: insts, tile :: tiles =>
    match real_cmp inst.depth tile.depth with
    | Ordering.gt | Ordering.eq =>
      match draw_instance g inst with
      | Except.error e => ([], some e)
      | Except.ok acts =>
        let rest := scene_body g insts (tile :: tiles)
        (acts ++ rest.1, rest.2)
    | Ordering.lt =>
      let rest := scene_body g (inst :: insts) tiles
      (draw_tile g tile ++ rest.1, rest.2)
  | inst :: insts, [] =>
    match draw_instance g inst with
    | Except.error e => ([], some e)
    | Except.ok acts =>
      let rest := scene_body g insts []
      (acts ++ rest.1, rest.2)
  | [], tile :: tiles =>
    let rest := scene_body g [] tiles
    (draw_tile g tile ++ rest.1, rest.2)
  | [], [] => ([], none)
termination_by insts tiles => insts.length + tiles.length

/-- Stable insertion of `x` after every already-placed element whose depth
is tolerantly greater than or equal to `x`'s. -/
def insert_desc {α : Type} (depth : α → ℚ) (x : α) : List α → List α
  | [] => [x]
  | y :: ys =>
    if real_cmp (depth y) (depth x) = Ordering.lt then x :: y :: ys
    else y :: insert_desc depth x ys

/-- Modelled from the spec: `draw_sort` — each list "maintains a cached
permutation sorted by descending depth" and the "sort must be stable: equal
depths preserve list-insertion order"; realised as a stable insertion sort
under the tolerant ordering. -/
def draw_sort {α : Type} (depth : α → ℚ) (l : List α) : List α :=
  l.foldl (fun acc x => insert_desc depth x acc) []

/-- Embedding of `draw_view`: projection setup, non-foreground background
pass, depth-merged scene body, foreground pass (skipped when the scene body
propagates a failure, mirroring the early `?` return). -/
def draw_view (g : Game) (src_x src_y src_w src_h port_x port_y port_w port_h : ℤ)
    (angle : ℚ) : List Action × Option Failure :=
  let body := scene_body g (draw_sort Instance.depth g.instance_list)
    (draw_sort Tile.depth g.tile_list)
  (Action.set_view g.window_width g.window_height g.unscaled_width g.unscaled_height
      src_x src_y src_w src_h angle port_x port_y port_w port_h
    :: (draw_backgrounds_pass g false ++ body.1 ++
      match body.2 with
      | some _ => []
      | none => draw_backgrounds_pass g true),
   body.2)

/-- The view loop of `Game::draw`: process each visible view in index
order, stopping at (and propagating) the first failure. -/
def draw_views (g : Game) : List View → List Action × Option Failure
  | [] => ([], none)
  | v :: vs =>
    if v.visible then
      match draw_view g v.source_x v.source_y v.source_w v.source_h
          v.port_x v.port_y v.port_w v.port_h v.angle with
      | (acts, some e) => (acts, some e)
      | (acts, none) =>
        let rest := draw_views g vs
        (acts ++ rest.1, rest.2)
    else draw_views g vs

/-- Embedding of `Game::draw`: the per-frame pass — views (or one whole-room
pass), then `renderer.finish(window_w, window_h)`, then
`input_manager.clear_presses()`.  A failure propagated by `?` skips both
trailing calls. -/
def Game.draw (g : Game) : List Action × Option Failure :=
  match
    (if g.views_enabled then draw_views g g.views
     else draw_view g 0 0 g.room_width g.room_height 0 0 g.room_width g.room_height 0) with
  | (acts, some e) => (acts, some e)
  | (acts, none) =>
    (acts ++ [Action.finish g.window_width g.window_height, Action.clear_presses], none)

/-- Recogniser for the two end-of-frame calls. -/
def is_finish (a : Action) : Bool :=
  match a with
  | Action.finish _ _ => true
  | _ => false

/-- Recogniser for the input-manager clear call. -/
def is_clear (a : Action) : Bool :=
  match a with
  | Action.clear_presses => true
  | _ => false

/-- Number of `finish` calls in a trace. -/
def count_finish (l : List Action) : ℕ := l.countP is_finish

/-- Number of `clear_presses` calls in a trace. -/
def count_clear (l : List Action) : ℕ := l.countP is_clear

/-! ## Text layout engine (`get_string_size` / `draw_string`) -/

/-- Rust `as u32` of a signed value: two's-complement reinterpretation into
`[0, 2³²)` (the `(cursor_x - start_x) as u32` cast of `draw_string`). -/
def as_u32 (n : ℤ) : ℕ := (n % 2 ^ 32).toNat

/-- Measurement step for one resolved character of `get_string_size`: the
max-width wrap check (`current_line_width + character.width > max_width`
and the line is non-empty) followed by the cursor advance by
`character.distance`.  State is `(width, height, current_line_width)`. -/
def gss_step (lh : ℕ) (mw : Option ℕ) (ch : FontChar) (width height clw : ℕ) :
    ℕ × ℕ × ℕ :=
  match mw with
  | some m =>
    if clw + ch.width > m ∧ clw ≠ 0 then
      ((if clw > width then clw else width), height + lh, ch.distance)
    else (width, height, clw + ch.distance)
  | none => (width, height, clw + ch.distance)

/-- The character loop of `get_string_size`: `'#'` commits the line,
`'\#'` escapes a literal hash, any other codepoint resolves through the
font (absent glyphs are skipped), and the trailing commit treats the end of
the string as a newline. -/
def gss_loop (font : Font) (lh : ℕ) (mw : Option ℕ) :
    List Char → ℕ → ℕ → ℕ → ℕ × ℕ
  | [], width, height, clw =>
    ((if clw > width then clw else width), height + lh)
  | '#' :: rest, width, height, clw =>
    gss_loop font lh mw rest (if clw > width then clw else width) (height + lh) 0
  | '\\' :: '#' :: rest, width, height, clw =>
    match font.get_char '#'.toNat with
    | none => gss_loop font lh mw rest width height clw
    | some ch =>
      match gss_step lh mw ch width height clw with
      | (w2, h2, c2) => gss_loop font lh mw rest w2 h2 c2
  | c :: rest, width, height, clw =>
    match font.get_char c.toNat with
    | none => gss_loop font lh mw rest width height clw
    | some ch =>
      match gss_step lh mw ch width height clw with
      | (w2, h2, c2) => gss_loop font lh mw rest w2 h2 c2

/-- Embedding of `Game::get_string_size` after the `draw_font` unwrap: the
line height is the caller's, or else the height of the glyph for `'M'`, or
else 0. -/
def get_string_size (font : Font) (s : List Char)
    (line_height max_width : Option ℕ) : ℕ × ℕ :=
  gss_loop font
    (match line_height with
     | some h => h
     | none => ((font.get_char 'M'.toNat).map FontChar.height).getD 0)
    max_width s 0 0 0

/-- The max-width wrap check of `draw_string`: the current line width is
`(cursor_x - start_x) as u32`; on wrap the cursor returns to `start_x` and
descends one line. -/
def ds_wrap (lh : ℤ) (mw : Option ℕ) (start_x : ℤ) (ch : FontChar) (cx cy : ℤ) :
    ℤ × ℤ :=
  match mw with
  | some m =>
    if as_u32 (cx - start_x) + ch.width > m ∧ as_u32 (cx - start_x) ≠ 0 then
      (start_x, cy + lh)
    else (cx, cy)
  | none => (cx, cy)

/-- Emission step for one resolved character of `draw_string`: wrap check,
one `draw_sprite_partial` of the glyph's atlas rectangle at destination
`(character.offset as i32 + cursor_x, cursor_y)` with scales 1, angle 0,
the current draw colour and alpha, then the advance by
`character.distance`.  Returns the emitted call and the new cursor. -/
def ds_emit (font : Font) (colour : ℕ) (alpha : ℚ) (lh : ℤ) (mw : Option ℕ)
    (start_x : ℤ) (ch : FontChar) (cx cy : ℤ) : Action × ℤ × ℤ :=
  match ds_wrap lh mw start_x ch cx cy with
  | (wx, wy) =>
    (Action.draw_sprite_partial font.atlas_ref ch.x ch.y ch.width ch.height
      (((ch.offset : ℤ) + wx : ℤ) : ℚ) ((wy : ℤ) : ℚ) 1 1 0 (as_i32 colour) alpha,
     wx + (ch.distance : ℤ), wy)

/-- The character loop of `draw_string`, sharing the character-resolution
rules of `gss_loop`. -/
def ds_loop (font : Font) (colour : ℕ) (alpha : ℚ) (lh : ℤ) (mw : Option ℕ)
    (start_x : ℤ) : List Char → ℤ → ℤ → List Action
  | [], _, _ => []
  | '#' :: rest, _, cy => ds_loop font colour alpha lh mw start_x rest start_x (cy + lh)
  | '\\' :: '#' :: rest, cx, cy =>
    match font.get_char '#'.toNat with
    | none => ds_loop font colour alpha lh mw start_x rest cx cy
    | some ch =>
      match ds_emit font colour alpha lh mw start_x ch cx cy with
      | (a, cx2, cy2) => a :: ds_loop font colour alpha lh mw start_x rest cx2 cy2
  | c :: rest, cx, cy =>
    match font.get_char c.toNat with
    | none => ds_loop font colour alpha lh mw start_x rest cx cy
    | some ch =>
      match ds_emit font colour alpha lh mw start_x ch cx cy with
      | (a, cx2, cy2) => a :: ds_loop font colour alpha lh mw start_x rest cx2 cy2

/-- The alignment block of `draw_string`: `(Left, Top)` uses the anchor
directly ("avoids calling get_string_size if we don't need to"); every
other combination measures once with `line_height = none, max_width =
none` and shifts the anchor; the horizontal shifts go through the
`width as i32` cast and the truncating `i32` division by 2. -/
def align_cursor (font : Font) (halign : Halign) (valign : Valign) (x y : ℤ)
    (s : List Char) : ℤ × ℤ :=
  match halign, valign with
  | Halign.left, Valign.top => (x, y)
  | h, v =>
    match get_string_size font s none none with
    | (w, hh) =>
      (match h with
       | Halign.left => x
       | Halign.middle => x - Int.tdiv (as_i32 (w : ℤ)) 2
       | Halign.right => x - as_i32 (w : ℤ),
       match v with
       | Valign.top => y
       | Valign.middle => y - Int.tdiv (as_i32 (hh : ℤ)) 2
       | Valign.bottom => y - as_i32 (hh : ℤ))

/-- Embedding of `Game::draw_string` after the `draw_font` unwrap. -/
def draw_string (font : Font) (halign : Halign) (valign : Valign) (colour : ℕ)
    (alpha : ℚ) (x y : ℤ) (s : List Char)
    (line_height max_width : Option ℕ) : List Action :=
  match align_cursor font halign valign x y s with
  | (cx, cy) =>
    ds_loop font colour alpha
      (match line_height with
       | some h => as_i32 (h : ℤ)
       | none => as_i32 (((font.get_char 'M'.toNat).map FontChar.height).getD 0 : ℤ))
      max_width cx s cx cy

/-- Top-level `Game::get_string_size`: the `self.draw_font.as_ref().unwrap()`
call panics when no draw font is set. -/
def Game.get_string_size (g : Game) (s : List Char)
    (line_height max_width : Option ℕ) : Except Failure (ℕ × ℕ) :=
  match g.draw_font with
  | none => Except.error Failure.panic
  | some font => Except.ok (GM8.get_string_size font s line_height max_width)

/-- Top-level `Game::draw_string`: the `self.draw_font.as_ref().unwrap()`
call panics when no draw font is set. -/
def Game.draw_string (g : Game) (x y : ℤ) (s : List Char)
    (line_height max_width : Option ℕ) : Except Failure (List Action) :=
  match g.draw_font with
  | none => Except.error Failure.panic
  | some font =>
    Except.ok (GM8.draw_string font g.draw_halign g.draw_valign g.draw_colour
      g.draw_alpha x y s line_height max_width)

/-! ## Concrete example data used by the witnesses and counterexamples -/

/-- Example instance I₁ of the draw-order test: depth 10, sprite 0. -/
def ex_I1 : Instance :=
  { object_index := 1, sprite_index := 0, image_index := 0, image_xscale := 1,
    image_yscale := 1, image_angle := 0, image_blend := 16777215,
    image_alpha := 1, x := 11, y := 12, depth := 10 }

/-- Example instance I₂: depth 5, sprite 1. -/
def ex_I2 : Instance :=
  { ex_I1 with object_index := 2, sprite_index := 1, x := 21, y := 22, depth := 5 }

/-- Example instance I₃: depth 5, sprite 2. -/
def ex_I3 : Instance :=
  { ex_I1 with object_index := 3, sprite_index := 2, x := 31, y := 32, depth := 5 }

/-- Example tile T₁: depth 7, background 0. -/
def ex_T1 : Tile :=
  { background_index := 0, tile_x := 0, tile_y := 0, width := 16, height := 16,
    x := 41, y := 42, xscale := 1, yscale := 1, blend := 16777215, alpha := 1,
    depth := 7 }

/-- Example tile T₂: depth 5, background 1. -/
def ex_T2 : Tile := { ex_T1 with background_index := 1, x := 51, y := 52, depth := 5 }

/-- Example game for the draw-order test: three one-frame sprites (atlas
101, 102, 103), two backgrounds (atlas 201, 202), no custom-draw objects,
views disabled. -/
def ex_game : Game :=
  { assets_sprites := [some ⟨[⟨101⟩]⟩, some ⟨[⟨102⟩]⟩, some ⟨[⟨103⟩]⟩],
    assets_backgrounds := [some ⟨some 201⟩, some ⟨some 202⟩],
    custom_draw_objects := [],
    draw_event_result := fun _ => none,
    instance_list := [ex_I1, ex_I2, ex_I3],
    tile_list := [ex_T1, ex_T2],
    backgrounds := [],
    views_enabled := false,
    views := [],
    room_width := 640, room_height := 480,
    window_width := 640, window_height := 480,
    unscaled_width := 640, unscaled_height := 480,
    draw_font := none,
    draw_halign := Halign.left, draw_valign := Valign.top,
    draw_colour := 0, draw_alpha := 1 }

/-- Game whose asset list holds a zero-frame sprite at index 0 and a
two-frame sprite at index 1. -/
def ex_game_c1 : Game :=
  { ex_game with
    assets_sprites := [some ⟨[]⟩, some ⟨[⟨7⟩, ⟨8⟩]⟩],
    instance_list := [], tile_list := [] }

/-- Non-custom instance whose sprite has zero frames. -/
def ex_inst_zero_frames : Instance := { ex_I1 with object_index := 99, sprite_index := 0 }

/-- Non-custom instance whose sprite index resolves to no sprite. -/
def ex_inst_no_sprite : Instance := { ex_I1 with object_index := 99, sprite_index := 5 }

/-- Non-custom instance whose computed frame is missing (negative
`image_index` makes the `as usize` cast huge). -/
def ex_inst_missing_frame : Instance :=
  { ex_I1 with object_index := 99, sprite_index := 1, image_index := -1 }

/-- Game with no instances and no tiles (for the frame-end witness). -/
def ex_game_empty : Game := { ex_game with instance_list := [], tile_list := [] }

/-- The full frame trace of `ex_game_empty`: one whole-room view pass, the
frame-end `finish`, and the press-buffer clear. -/
def ex_trace_empty : List Action :=
  [Action.set_view 640 480 640 480 0 0 640 480 0 0 0 640 480,
   Action.finish 640 480, Action.clear_presses]

/-- Game with a single custom-draw instance whose scripted DRAW event
fails. -/
def ex_game_err : Game :=
  { ex_game with
    custom_draw_objects := [1],
    draw_event_result := fun i => if i = 1 then some ⟨"boom"⟩ else none,
    instance_list := [ex_I1],
    tile_list := [] }

/-- Font for the measurement test: `A: width=10 distance=12`,
`B: width=8 distance=10`, `C: width=6 distance=8`, `'M'.height = 16`, and
a `'#'` glyph `width=4 distance=5`. -/
def ex_font : Font :=
  ⟨400, [(Char.toNat 'A', ⟨0, 0, 10, 13, 1, 12⟩),
         (Char.toNat 'B', ⟨10, 0, 8, 13, 1, 10⟩),
         (Char.toNat 'C', ⟨18, 0, 6, 13, 1, 8⟩),
         (Char.toNat 'M', ⟨24, 0, 12, 16, 0, 13⟩),
         (Char.toNat '#', ⟨36, 0, 4, 13, 0, 5⟩)]⟩

/-- Font for the wrap test: a single glyph `A` with width 10 and distance
10. -/
def ex_font_wrap : Font := ⟨401, [(Char.toNat 'A', ⟨0, 0, 10, 12, 0, 10⟩)]⟩

/-- Font without an `'M'` glyph, for the line-height-inference fallback. -/
def ex_font_noM : Font := ⟨402, [(Char.toNat 'A', ⟨0, 0, 10, 13, 1, 12⟩)]⟩

end GM8

namespace GM8

/-! ## Theorems -/

/-- Helper: closed form of the iterated sum of the `0.2` literal. -/
theorem sum02_eq (n : ℕ) : sum02 n = n * lit_0_2 := by
  induction n with
  | zero => simp [sum02]
  | succ n ih =>
    rw [sum02, ih]
    push_cast
    ring

/-- Helper: the tolerant equality test against `19.0` succeeds exactly at
the 95th summand. -/
theorem real_eq_sum02_95 : real_eq (sum02 95) 19 = true := by
  rw [sum02_eq]
  simp only [real_eq, decide_eq_true_eq, CMP_EPSILON, lit_0_2]
  rw [abs_lt]
  constructor <;> norm_num

/-- Helper: before the 95th summand the running sum is tolerantly below
`19.0`, so the tolerant equality test fails. -/
theorem real_eq_sum02_lt95 (j : ℕ) (hj : j ≤ 94) : real_eq (sum02 j) 19 = false := by
  rw [sum02_eq]
  have hc : (0 : ℚ) < lit_0_2 := by norm_num [lit_0_2]
  have hj' : (j : ℚ) ≤ 94 := by exact_mod_cast hj
  have hmul : (j : ℚ) * lit_0_2 ≤ 94 * lit_0_2 :=
    mul_le_mul_of_nonneg_right hj' (le_of_lt hc)
  have hgap : CMP_EPSILON ≤ 19 - 94 * lit_0_2 := by norm_num [CMP_EPSILON, lit_0_2]
  simp only [real_eq, decide_eq_false_iff_not, not_lt]
  exact le_abs.mpr (Or.inr (by linarith))

/-- Helper: the running sum never becomes tolerantly greater than `19.0`
within the first 95 summands. -/
theorem real_gt_sum02_le95 (j : ℕ) (hj : j ≤ 95) : real_gt (sum02 j) 19 = false := by
  rw [sum02_eq]
  have hc : (0 : ℚ) < lit_0_2 := by norm_num [lit_0_2]
  have hj' : (j : ℚ) ≤ 95 := by exact_mod_cast hj
  have hmul : (j : ℚ) * lit_0_2 ≤ 95 * lit_0_2 :=
    mul_le_mul_of_nonneg_right hj' (le_of_lt hc)
  have htop : 95 * lit_0_2 - 19 < CMP_EPSILON := by norm_num [CMP_EPSILON, lit_0_2]
  have hns : ¬ CMP_EPSILON ≤ (j : ℚ) * lit_0_2 - 19 := by linarith
  simp only [real_gt, real_cmp_opt, hns, if_false]
  split_ifs <;> decide

/-- Helper: the `prec_19` loop reaches `19.0` from the `k`-th partial sum,
for `1 ≤ k ≤ 94`, provided the fuel accounts for the remaining steps. -/
theorem prec_19_loop_inv (fuel : ℕ) :
    ∀ k : ℕ, k + fuel = 95 → 1 ≤ k → k ≤ 94 →
      prec_19_loop fuel (sum02 k) = true := by
  induction fuel with
  | zero => intro k hk _ hk94; omega
  | succ fuel ih =>
    intro k hk _ hk94
    have hstep : sum02 k + lit_0_2 = sum02 (k + 1) := rfl
    rw [prec_19_loop]
    simp only [hstep]
    by_cases hlast : k = 94
    · subst hlast
      rw [real_eq_sum02_95]
      simp
    · have hk1 : k + 1 ≤ 94 := by omega
      rw [real_eq_sum02_lt95 (k + 1) hk1, real_gt_sum02_le95 (k + 1) (by omega)]
      simp only [Bool.false_eq_true, if_false]
      exact ih (k + 1) (by omega) (by omega) hk1

/-- C4: for all Real values `a`, `b` with ε = 10⁻¹³, equality holds iff
`|a − b| < ε`, the comparison is `Greater` iff `a − b ≥ ε`, `Less` iff
`a − b ≤ −ε`, it is always defined (never `none`, hence exactly one of the
three outcomes), and the `Equal` outcome coincides with the tolerant
equality. -/
theorem C4_real_tolerant_comparison (a b : ℚ) :
    (real_eq a b = true ↔ |a - b| < CMP_EPSILON) ∧
    (real_cmp_opt a b = some (real_cmp a b)) ∧
    (real_cmp a b = Ordering.gt ↔ CMP_EPSILON ≤ a - b) ∧
    (real_cmp a b = Ordering.lt ↔ a - b ≤ -CMP_EPSILON) ∧
    (real_cmp a b = Ordering.eq ↔ real_eq a b = true) := by
  have hε : (0 : ℚ) < CMP_EPSILON := by norm_num [CMP_EPSILON]
  by_cases h1 : CMP_EPSILON ≤ a - b
  · have hc : real_cmp a b = Ordering.gt := by simp [real_cmp, real_cmp_opt, h1]
    have hne : ¬ |a - b| < CMP_EPSILON := by
      rw [abs_lt]
      rintro ⟨-, h⟩
      linarith
    refine ⟨by simp [real_eq, hne], by simp [real_cmp_opt, real_cmp, h1], ?_, ?_, ?_⟩
    · simp [hc, h1]
    · simp only [hc]
      constructor
      · intro h
        cases h
      · intro h
        linarith
    · simp [hc, real_eq, hne]
  · by_cases h2 : a - b ≤ -CMP_EPSILON
    · have hc : real_cmp a b = Ordering.lt := by simp [real_cmp, real_cmp_opt, h1, h2]
      have hne : ¬ |a - b| < CMP_EPSILON := by
        rw [abs_lt]
        rintro ⟨h, -⟩
        linarith
      refine ⟨by simp [real_eq, hne], by simp [real_cmp_opt, real_cmp, h1, h2], ?_, ?_, ?_⟩
      · simpa [hc] using h1
      · simp [hc, h2]
      · simp [hc, real_eq, hne]
    · have hc : real_cmp a b = Ordering.eq := by simp [real_cmp, real_cmp_opt, h1, h2]
      push_neg at h1 h2
      have habs : |a - b| < CMP_EPSILON := by
        rw [abs_lt]
        constructor <;> linarith
      refine ⟨by simp [real_eq, habs], ?_, ?_, ?_, ?_⟩
      · simp [real_cmp_opt, real_cmp, not_le.mpr h1, not_le.mpr h2]
      · simp only [hc]
        constructor
        · intro h
          cases h
        · intro h
          linarith
      · simp only [hc]
        constructor
        · intro h
          cases h
        · intro h
          linarith
      · simp [hc, real_eq, habs]

/-- C5 counterexample: the claim's count is wrong — summing the double
literal `0.2` nineteen times yields ≈ 3.8, which is not tolerantly equal to
`19.0`. -/
theorem C5_counterexample : real_eq (sum02 19) 19 = false :=
  real_eq_sum02_lt95 19 (by norm_num)

/-- C5 (amended): under the tolerant comparison, `0.1 + 0.2 == 0.3`,
`0.3 <= 0.1 + 0.2`, `0.3 >= 0.1 + 0.2`, while `0.3 < 0.1 + 0.2` and
`0.3 > 0.1 + 0.2` are false; and repeatedly summing `0.2` — ninety-five
summands, i.e. the `prec_19` test loop's 94 additions starting from `0.2` —
reaches `19.0` under tolerant equality, never tolerantly exceeding it at
any intermediate step. -/
theorem C5_extended_precision_identities :
    real_eq (lit_0_1 + lit_0_2) lit_0_3 = true ∧
    real_le lit_0_3 (lit_0_1 + lit_0_2) = true ∧
    real_ge lit_0_3 (lit_0_1 + lit_0_2) = true ∧
    real_lt lit_0_3 (lit_0_1 + lit_0_2) = false ∧
    real_gt lit_0_3 (lit_0_1 + lit_0_2) = false ∧
    real_eq (sum02 95) 19 = true ∧
    prec_19_loop 94 lit_0_2 = true := by
  have hno_gt : ¬ CMP_EPSILON ≤ lit_0_3 - (lit_0_1 + lit_0_2) := by
    norm_num [CMP_EPSILON, lit_0_1, lit_0_2, lit_0_3]
  have hno_lt : ¬ lit_0_3 - (lit_0_1 + lit_0_2) ≤ -CMP_EPSILON := by
    norm_num [CMP_EPSILON, lit_0_1, lit_0_2, lit_0_3]
  have heq : real_eq (lit_0_1 + lit_0_2) lit_0_3 = true := by
    simp only [real_eq, decide_eq_true_eq, CMP_EPSILON, lit_0_1, lit_0_2, lit_0_3]
    rw [abs_lt]
    constructor <;> norm_num
  have hloop : prec_19_loop 94 lit_0_2 = true := by
    have h1 : sum02 1 = lit_0_2 := by simp [sum02]
    have := prec_19_loop_inv 94 1 (by omega) (le_refl 1) (by omega)
    rwa [h1] at this
  refine ⟨heq, ?_, ?_, ?_, ?_, real_eq_sum02_95, hloop⟩ <;>
    simp [real_le, real_ge, real_lt, real_gt, real_cmp_opt, hno_gt, hno_lt] <;>
    decide

/-- C6: `round64` rounds to nearest (error at most ½) with ties to even;
`round` is the low 32 bits of `round64` reinterpreted as a signed 32-bit
integer; and for every integer `0 ≤ i < 1000`, `round(i + 0.5) mod 2 = 0`
(banker's rounding makes every half-integer round to an even value). -/
theorem C6_round_banker :
    (∀ x : ℚ, |x - round64 x| ≤ 1 / 2) ∧
    (∀ n : ℤ, round64 ((n : ℚ) + 1 / 2) = if n % 2 = 0 then n else n + 1) ∧
    (∀ x : ℚ, round x = i64_low32_as_i32 (round64 x)) ∧
    (∀ i : ℕ, i < 1000 → round ((i : ℚ) + 1 / 2) % 2 = 0) := by
  have hfloor : ∀ n : ℤ, ⌊(n : ℚ) + 1 / 2⌋ = n := by
    intro n
    rw [add_comm, Int.floor_add_int]
    norm_num
  have htie : ∀ n : ℤ, round64 ((n : ℚ) + 1 / 2) = if n % 2 = 0 then n else n + 1 := by
    intro n
    unfold round64
    rw [hfloor]
    have hr : ((n : ℚ) + 1 / 2) - n = 1 / 2 := by ring
    rw [hr]
    norm_num
  refine ⟨?_, htie, fun _ => rfl, ?_⟩
  · intro x
    unfold round64
    have h0 : (0 : ℚ) ≤ x - ⌊x⌋ := by
      have := Int.floor_le x
      linarith
    have h1 : x - ⌊x⌋ < 1 := by
      have := Int.lt_floor_add_one x
      linarith
    split_ifs with ha hb hc <;> rw [abs_le] <;> push_cast <;> constructor <;> linarith
  · intro i hi
    have hcast : ((i : ℤ) : ℚ) = (i : ℚ) := by norm_cast
    have hv := htie (i : ℤ)
    rw [hcast] at hv
    unfold round i64_low32_as_i32
    rw [hv]
    by_cases hpar : (i : ℤ) % 2 = 0
    · simp only [hpar, if_true]
      have h1 : ((i : ℤ)) % 2 ^ 32 = (i : ℤ) := by omega
      rw [h1]
      have h2 : ((i : ℤ)) < 2 ^ 31 := by omega
      rw [if_pos h2]
      exact hpar
    · simp only [hpar, if_false]
      have h1 : ((i : ℤ) + 1) % 2 ^ 32 = (i : ℤ) + 1 := by omega
      rw [h1]
      have h2 : ((i : ℤ) + 1) < 2 ^ 31 := by omega
      rw [if_pos h2]
      omega

/-- C6 witness: the per-integer property applied at `i = 3`:
`round(3.5) mod 2 = 0`. -/
theorem C6_round_banker_witness : (3 : ℕ) < 1000 ∧ round ((3 : ℚ) + 1 / 2) % 2 = 0 :=
  ⟨by norm_num, C6_round_banker.2.2.2 3 (by norm_num)⟩

/-- Helper: the comparison yields `Greater` whenever the difference reaches
the tolerance. -/
theorem real_cmp_gt_of (a b : ℚ) (h : CMP_EPSILON ≤ a - b) :
    real_cmp a b = Ordering.gt := by
  unfold real_cmp real_cmp_opt
  rw [if_pos h]
  rfl

/-- Helper: the comparison yields `Less` whenever the difference reaches
the negated tolerance. -/
theorem real_cmp_lt_of (a b : ℚ) (h1 : ¬ CMP_EPSILON ≤ a - b)
    (h2 : a - b ≤ -CMP_EPSILON) : real_cmp a b = Ordering.lt := by
  unfold real_cmp real_cmp_opt
  rw [if_neg h1, if_pos h2]
  rfl

/-- Helper: the comparison yields `Equal` inside the tolerance band. -/
theorem real_cmp_eq_of (a b : ℚ) (h1 : ¬ CMP_EPSILON ≤ a - b)
    (h2 : ¬ a - b ≤ -CMP_EPSILON) : real_cmp a b = Ordering.eq := by
  unfold real_cmp real_cmp_opt
  rw [if_neg h1, if_neg h2]
  rfl

/-- C1 (documented intent vs. code): evaluating the default draw at the
three silent-miss situations.  A missing sprite and a missing frame draw
nothing and propagate nothing, but an instance whose sprite has zero
frames makes the `floor(image_index) as i32 % frames.len() as i32`
computation a Rust remainder by zero, which panics instead of being the
silent no-op the code's own `// sprite with 0 frames?` arm was written
for. -/
theorem C1_zero_frames_panic :
    draw_instance ex_game_c1 ex_inst_zero_frames = Except.error Failure.panic ∧
    draw_instance ex_game_c1 ex_inst_no_sprite = Except.ok [] ∧
    draw_instance ex_game_c1 ex_inst_missing_frame = Except.ok [] :=
  ⟨rfl, rfl, rfl⟩

/-- C2: the merge loop draws the instance and advances its cursor exactly
when the instance's depth is tolerantly ≥ the tile's (so tolerant equality
draws the instance first), draws the tile otherwise, and drains whichever
stream remains; and on the five-element example (instances of depth 10, 5,
5 and tiles of depth 7, 5, already in stable descending insertion order,
which `draw_sort` preserves) the renderer receives I₁, T₁, I₂, I₃, T₂. -/
theorem C2_merge_order :
    (∀ (g : Game) (inst : Instance) (insts : List Instance) (tile : Tile)
        (tiles : List Tile), real_cmp inst.depth tile.depth ≠ Ordering.lt →
      scene_body g (inst :: insts) (tile :: tiles) =
        match draw_instance g inst with
        | Except.error e => ([], some e)
        | Except.ok acts =>
          (acts ++ (scene_body g insts (tile :: tiles)).1,
           (scene_body g insts (tile :: tiles)).2)) ∧
    (∀ (g : Game) (inst : Instance) (insts : List Instance) (tile : Tile)
        (tiles : List Tile), real_cmp inst.depth tile.depth = Ordering.lt →
      scene_body g (inst :: insts) (tile :: tiles) =
        (draw_tile g tile ++ (scene_body g (inst :: insts) tiles).1,
         (scene_body g (inst :: insts) tiles).2)) ∧
    (∀ (g : Game) (inst : Instance) (insts : List Instance),
      scene_body g (inst :: insts) [] =
        match draw_instance g inst with
        | Except.error e => ([], some e)
        | Except.ok acts =>
          (acts ++ (scene_body g insts []).1, (scene_body g insts []).2)) ∧
    (∀ (g : Game) (tile : Tile) (tiles : List Tile),
      scene_body g [] (tile :: tiles) =
        (draw_tile g tile ++ (scene_body g [] tiles).1, (scene_body g [] tiles).2)) ∧
    draw_sort Instance.depth [ex_I1, ex_I2, ex_I3] = [ex_I1, ex_I2, ex_I3] ∧
    draw_sort Tile.depth [ex_T1, ex_T2] = [ex_T1, ex_T2] ∧
    scene_body ex_game [ex_I1, ex_I2, ex_I3] [ex_T1, ex_T2] =
      ([Action.draw_sprite 101 11 12 1 1 0 16777215 1,
        Action.draw_sprite_partial 201 0 0 16 16 41 42 1 1 0 16777215 1,
        Action.draw_sprite 102 21 22 1 1 0 16777215 1,
        Action.draw_sprite 103 31 32 1 1 0 16777215 1,
        Action.draw_sprite_partial 202 0 0 16 16 51 52 1 1 0 16777215 1], none) := by
  have hd_I1_T1 : real_cmp ex_I1.depth ex_T1.depth = Ordering.gt :=
    real_cmp_gt_of _ _ (by norm_num [ex_I1, ex_T1, CMP_EPSILON])
  have hd_I2_T1 : real_cmp ex_I2.depth ex_T1.depth = Ordering.lt :=
    real_cmp_lt_of _ _ (by norm_num [ex_I2, ex_I1, ex_T1, CMP_EPSILON])
      (by norm_num [ex_I2, ex_I1, ex_T1, CMP_EPSILON])
  have hd_I2_T2 : real_cmp ex_I2.depth ex_T2.depth = Ordering.eq :=
    real_cmp_eq_of _ _ (by norm_num [ex_I2, ex_I1, ex_T2, ex_T1, CMP_EPSILON])
      (by norm_num [ex_I2, ex_I1, ex_T2, ex_T1, CMP_EPSILON])
  have hd_I3_T2 : real_cmp ex_I3.depth ex_T2.depth = Ordering.eq :=
    real_cmp_eq_of _ _ (by norm_num [ex_I3, ex_I1, ex_T2, ex_T1, CMP_EPSILON])
      (by norm_num [ex_I3, ex_I1, ex_T2, ex_T1, CMP_EPSILON])
  have hs_I1_I2 : real_cmp ex_I1.depth ex_I2.depth = Ordering.gt :=
    real_cmp_gt_of _ _ (by norm_num [ex_I1, ex_I2, CMP_EPSILON])
  have hs_I1_I3 : real_cmp ex_I1.depth ex_I3.depth = Ordering.gt :=
    real_cmp_gt_of _ _ (by norm_num [ex_I1, ex_I3, CMP_EPSILON])
  have hs_I2_I3 : real_cmp ex_I2.depth ex_I3.depth = Ordering.eq :=
    real_cmp_eq_of _ _ (by norm_num [ex_I2, ex_I3, ex_I1, CMP_EPSILON])
      (by norm_num [ex_I2, ex_I3, ex_I1, CMP_EPSILON])
  have hs_T1_T2 : real_cmp ex_T1.depth ex_T2.depth = Ordering.gt :=
    real_cmp_gt_of _ _ (by norm_num [ex_T1, ex_T2, CMP_EPSILON])
  have dI1 : draw_instance ex_game ex_I1 =
      Except.ok [Action.draw_sprite 101 11 12 1 1 0 16777215 1] := rfl
  have dI2 : draw_instance ex_game ex_I2 =
      Except.ok [Action.draw_sprite 102 21 22 1 1 0 16777215 1] := rfl
  have dI3 : draw_instance ex_game ex_I3 =
      Except.ok [Action.draw_sprite 103 31 32 1 1 0 16777215 1] := rfl
  have dT1 : draw_tile ex_game ex_T1 =
      [Action.draw_sprite_partial 201 0 0 16 16 41 42 1 1 0 16777215 1] := rfl
  have dT2 : draw_tile ex_game ex_T2 =
      [Action.draw_sprite_partial 202 0 0 16 16 51 52 1 1 0 16777215 1] := rfl
  refine ⟨?_, ?_, ?_, ?_, ?_, ?_, ?_⟩
  · intro g inst insts tile tiles h
    cases hc : real_cmp inst.depth tile.depth with
    | lt => exact absurd hc h
    | eq =>
      simp only [scene_body, hc]
    | gt =>
      simp only [scene_body, hc]
  · intro g inst insts tile tiles h
    simp only [scene_body, h]
  · intro g inst insts
    simp only [scene_body]
  · intro g tile tiles
    simp only [scene_body]
  · simp only [draw_sort, List.foldl, insert_desc, hs_I1_I2, hs_I1_I3, hs_I2_I3]
    rfl
  · simp only [draw_sort, List.foldl, insert_desc, hs_T1_T2]
    rfl
  · simp only [scene_body, hd_I1_T1, hd_I2_T1, hd_I2_T2, hd_I3_T2, dI1, dI2, dI3,
      dT1, dT2]
    rfl

/-- C2 witness: the merge-step laws applied at concrete singleton streams —
depths 10 vs 7 take the instance branch; depths 5 vs 7 take the tile
branch. -/
theorem C2_merge_order_witness :
    (scene_body ex_game [ex_I1] [ex_T1] =
      match draw_instance ex_game ex_I1 with
      | Except.error e => ([], some e)
      | Except.ok acts =>
        (acts ++ (scene_body ex_game [] [ex_T1]).1,
         (scene_body ex_game [] [ex_T1]).2)) ∧
    (scene_body ex_game [ex_I2] [ex_T1] =
      (draw_tile ex_game ex_T1 ++ (scene_body ex_game [ex_I2] []).1,
       (scene_body ex_game [ex_I2] []).2)) :=
  ⟨C2_merge_order.1 ex_game ex_I1 [] ex_T1 []
      (by rw [real_cmp_gt_of ex_I1.depth ex_T1.depth
          (by norm_num [ex_I1, ex_T1, CMP_EPSILON])]; decide),
   C2_merge_order.2.1 ex_game ex_I2 [] ex_T1 []
      (real_cmp_lt_of ex_I2.depth ex_T1.depth
        (by norm_num [ex_I2, ex_I1, ex_T1, CMP_EPSILON])
        (by norm_num [ex_I2, ex_I1, ex_T1, CMP_EPSILON]))⟩

/-- Helper: `draw_instance` never emits a frame-end call. -/
theorem not_frame_end_draw_instance (g : Game) (inst : Instance)
    (acts : List Action) (h : draw_instance g inst = Except.ok acts) :
    ∀ a ∈ acts, is_finish a = false ∧ is_clear a = false := by
  intro a ha
  unfold draw_instance at h
  split at h
  · split at h
    · simp at h
    · rw [Except.ok.injEq] at h
      subst h
      simp only [List.mem_singleton] at ha
      subst ha
      exact ⟨rfl, rfl⟩
  · split at h
    · split at h
      · simp at h
      · split at h
        · rw [Except.ok.injEq] at h
          subst h
          simp only [List.mem_singleton] at ha
          subst ha
          exact ⟨rfl, rfl⟩
        · rw [Except.ok.injEq] at h
          subst h
          simp at ha
    · rw [Except.ok.injEq] at h
      subst h
      simp at ha

/-- Helper: `draw_tile` never emits a frame-end call. -/
theorem not_frame_end_draw_tile (g : Game) (tile : Tile) :
    ∀ a ∈ draw_tile g tile, is_finish a = false ∧ is_clear a = false := by
  intro a ha
  unfold draw_tile at ha
  split at ha
  · split at ha
    · simp only [List.mem_singleton] at ha
      subst ha
      exact ⟨rfl, rfl⟩
    · simp at ha
  · simp at ha

/-- Helper: the background compositor never emits a frame-end call. -/
theorem not_frame_end_bg_pass (g : Game) (fg : Bool) :
    ∀ a ∈ draw_backgrounds_pass g fg, is_finish a = false ∧ is_clear a = false := by
  intro a ha
  unfold draw_backgrounds_pass at ha
  rw [List.mem_flatten] at ha
  obtain ⟨l, hl, hal⟩ := ha
  rw [List.mem_map] at hl
  obtain ⟨b, -, rfl⟩ := hl
  split at hal
  · split at hal
    · simp only [List.mem_singleton] at hal
      subst hal
      exact ⟨rfl, rfl⟩
    · simp at hal
  · simp at hal

/-- Helper: the scene-body merge loop never emits a frame-end call
(bounded-length induction over the two streams). -/
theorem not_frame_end_scene_body_aux (g : Game) (n : ℕ) :
    ∀ (insts : List Instance) (tiles : List Tile),
      insts.length + tiles.length ≤ n →
      ∀ a ∈ (scene_body g insts tiles).1, is_finish a = false ∧ is_clear a = false := by
  induction n with
  | zero =>
    intro insts tiles hlen a ha
    rcases insts with - | ⟨i, is⟩
    · rcases tiles with - | ⟨t, ts⟩
      · simp [scene_body] at ha
      · simp at hlen
    · simp at hlen
  | succ n ih =>
    intro insts tiles hlen a ha
    rcases insts with - | ⟨i, is⟩
    · rcases tiles with - | ⟨t, ts⟩
      · simp [scene_body] at ha
      · simp only [scene_body] at ha
        rcases List.mem_append.mp ha with h1 | h2
        · exact not_frame_end_draw_tile g t a h1
        · exact ih [] ts (by simp at hlen ⊢; omega) a h2
    · rcases tiles with - | ⟨t, ts⟩
      · simp only [scene_body] at ha
        rcases hd : draw_instance g i with e | acts
        · rw [hd] at ha
          simp at ha
        · rw [hd] at ha
          rcases List.mem_append.mp ha with h1 | h2
          · exact not_frame_end_draw_instance g i acts hd a h1
          · exact ih is [] (by simp at hlen ⊢; omega) a h2
      · simp only [scene_body] at ha
        cases hc : real_cmp i.depth t.depth
        · rw [hc] at ha
          rcases List.mem_append.mp ha with h1 | h2
          · exact not_frame_end_draw_tile g t a h1
          · exact ih (i :: is) ts (by simp at hlen ⊢; omega) a h2
        · rw [hc] at ha
          rcases hd : draw_instance g i with e | acts
          · rw [hd] at ha
            simp at ha
          · rw [hd] at ha
            rcases List.mem_append.mp ha with h1 | h2
            · exact not_frame_end_draw_instance g i acts hd a h1
            · exact ih is (t :: ts) (by simp at hlen ⊢; omega) a h2
        · rw [hc] at ha
          rcases hd : draw_instance g i with e | acts
          · rw [hd] at ha
            simp at ha
          · rw [hd] at ha
            rcases List.mem_append.mp ha with h1 | h2
            · exact not_frame_end_draw_instance g i acts hd a h1
            · exact ih is (t :: ts) (by simp at hlen ⊢; omega) a h2

/-- Helper: wrapper of the scene-body induction at the exact length. -/
theorem not_frame_end_scene_body (g : Game) (insts : List Instance)
    (tiles : List Tile) :
    ∀ a ∈ (scene_body g insts tiles).1, is_finish a = false ∧ is_clear a = false :=
  not_frame_end_scene_body_aux g (insts.length + tiles.length) insts tiles le_rfl

/-- Helper: one view pass never emits a frame-end call. -/
theorem not_frame_end_draw_view (g : Game)
    (sx sy sw sh px py pw ph : ℤ) (ang : ℚ) :
    ∀ a ∈ (draw_view g sx sy sw sh px py pw ph ang).1,
      is_finish a = false ∧ is_clear a = false := by
  intro a ha
  simp only [draw_view, List.mem_cons, List.mem_append] at ha
  rcases ha with rfl | (h1 | h2) | h3
  · exact ⟨rfl, rfl⟩
  · exact not_frame_end_bg_pass g false a h1
  · exact not_frame_end_scene_body g _ _ a h2
  · rcases hb : (scene_body g (draw_sort Instance.depth g.instance_list)
        (draw_sort Tile.depth g.tile_list)).2 with - | e
    · rw [hb] at h3
      exact not_frame_end_bg_pass g true a h3
    · rw [hb] at h3
      simp at h3

/-- Helper: the view loop never emits a frame-end call. -/
theorem not_frame_end_draw_views (g : Game) (vs : List View) :
    ∀ a ∈ (draw_views g vs).1, is_finish a = false ∧ is_clear a = false := by
  induction vs with
  | nil => simp [draw_views]
  | cons v vs ih =>
    intro a ha
    simp only [draw_views] at ha
    by_cases hv : v.visible
    · rw [if_pos hv] at ha
      rcases hdv : draw_view g v.source_x v.source_y v.source_w v.source_h
          v.port_x v.port_y v.port_w v.port_h v.angle with ⟨acts, r⟩
      rw [hdv] at ha
      have hview := not_frame_end_draw_view g v.source_x v.source_y v.source_w
        v.source_h v.port_x v.port_y v.port_w v.port_h v.angle
      rw [hdv] at hview
      cases r
      · rcases List.mem_append.mp ha with h1 | h2
        · exact hview a h1
        · exact ih a h2
      · exact hview a ha
    · rw [if_neg hv] at ha
      exact ih a ha

/-- Helper: the whole pre-`finish` frame body never emits a frame-end
call, whether views are enabled or not. -/
theorem not_frame_end_frame_body (g : Game) :
    ∀ a ∈ (if g.views_enabled then draw_views g g.views
        else draw_view g 0 0 g.room_width g.room_height 0 0
          g.room_width g.room_height 0).1,
      is_finish a = false ∧ is_clear a = false := by
  intro a ha
  by_cases hv : g.views_enabled
  · rw [if_pos hv] at ha
    exact not_frame_end_draw_views g g.views a ha
  · rw [if_neg hv] at ha
    exact not_frame_end_draw_view g 0 0 g.room_width g.room_height 0 0
      g.room_width g.room_height 0 a ha

/-- C3 (amended): whenever the frame's draw completes without a propagated
error, `renderer.finish(window_w, window_h)` is invoked exactly once, after
all views, and the input manager's press buffer is cleared exactly once,
after `finish`; when a scripted draw event propagates an error, the frame
aborts early and neither `finish` nor `clear_presses` is invoked. -/
theorem C3_finish_once :
    (∀ (g : Game) (acts : List Action), Game.draw g = (acts, none) →
      ∃ body, acts = body ++ [Action.finish g.window_width g.window_height,
          Action.clear_presses] ∧
        count_finish body = 0 ∧ count_clear body = 0 ∧
        count_finish acts = 1 ∧ count_clear acts = 1) ∧
    (∀ (g : Game) (acts : List Action) (e : Failure),
      Game.draw g = (acts, some e) →
      count_finish acts = 0 ∧ count_clear acts = 0) := by
  have hbody : ∀ (g : Game) (l : List Action),
      (∀ a ∈ l, is_finish a = false ∧ is_clear a = false) →
      count_finish l = 0 ∧ count_clear l = 0 := by
    intro g l hl
    constructor
    · rw [count_finish, List.countP_eq_zero]
      intro a ha
      simp [(hl a ha).1]
    · rw [count_clear, List.countP_eq_zero]
      intro a ha
      simp [(hl a ha).2]
  constructor
  · intro g acts h
    unfold Game.draw at h
    rcases hin : (if g.views_enabled then draw_views g g.views
        else draw_view g 0 0 g.room_width g.room_height 0 0
          g.room_width g.room_height 0) with ⟨acts0, r⟩
    rw [hin] at h
    cases r
    · rw [Prod.mk.injEq] at h
      obtain ⟨h1, -⟩ := h
      subst h1
      have hmem := not_frame_end_frame_body g
      rw [hin] at hmem
      have hc := hbody g acts0 hmem
      have hcf := hc.1
      have hcc := hc.2
      rw [count_finish] at hcf
      rw [count_clear] at hcc
      refine ⟨acts0, rfl, hc.1, hc.2, ?_, ?_⟩
      · rw [count_finish, List.countP_append, hcf]
        rfl
      · rw [count_clear, List.countP_append, hcc]
        rfl
    · simp at h
  · intro g acts e h
    unfold Game.draw at h
    rcases hin : (if g.views_enabled then draw_views g g.views
        else draw_view g 0 0 g.room_width g.room_height 0 0
          g.room_width g.room_height 0) with ⟨acts0, r⟩
    rw [hin] at h
    cases r
    · simp at h
    · rw [Prod.mk.injEq] at h
      obtain ⟨rfl, -⟩ := h
      have hmem := not_frame_end_frame_body g
      rw [hin] at hmem
      exact hbody g acts0 hmem

/-- C3 witness: the success clause applied to the empty-scene game, whose
frame trace is one `set_view`, then `finish`, then `clear_presses`. -/
theorem C3_finish_once_witness :
    ∃ body, ex_trace_empty = body ++
        [Action.finish ex_game_empty.window_width ex_game_empty.window_height,
         Action.clear_presses] ∧
      count_finish body = 0 ∧ count_clear body = 0 ∧
      count_finish ex_trace_empty = 1 ∧ count_clear ex_trace_empty = 1 := by
  have hsc : scene_body ex_game_empty [] [] = ([], none) := by
    simp [scene_body]
  have hsort1 : draw_sort Instance.depth ex_game_empty.instance_list = [] := rfl
  have hsort2 : draw_sort Tile.depth ex_game_empty.tile_list = [] := rfl
  have hbg0 : draw_backgrounds_pass ex_game_empty false = [] := rfl
  have hbg1 : draw_backgrounds_pass ex_game_empty true = [] := rfl
  have hvw : ex_game_empty.views_enabled = false := rfl
  have hdv : draw_view ex_game_empty 0 0 ex_game_empty.room_width
      ex_game_empty.room_height 0 0 ex_game_empty.room_width
      ex_game_empty.room_height 0 =
      ([Action.set_view 640 480 640 480 0 0 640 480 0 0 0 640 480], none) := by
    simp only [draw_view, hsort1, hsort2, hsc, hbg0, hbg1]
    rfl
  have h : Game.draw ex_game_empty = (ex_trace_empty, none) := by
    simp only [Game.draw, hvw, Bool.false_eq_true, if_false, hdv]
    rfl
  exact C3_finish_once.1 ex_game_empty ex_trace_empty h

/-- C3 counterexample: a frame whose only instance has a failing scripted
DRAW event aborts after `set_view` — `finish` and `clear_presses` are
never invoked, contradicting "exactly once ... for every execution". -/
theorem C3_counterexample :
    (Game.draw ex_game_err).2 = some (Failure.gml ⟨"boom"⟩) ∧
    count_finish (Game.draw ex_game_err).1 = 0 ∧
    count_clear (Game.draw ex_game_err).1 = 0 := by
  have hd : draw_instance ex_game_err ex_I1 =
      Except.error (Failure.gml ⟨"boom"⟩) := rfl
  have hsort1 : draw_sort Instance.depth ex_game_err.instance_list = [ex_I1] := rfl
  have hsort2 : draw_sort Tile.depth ex_game_err.tile_list = [] := rfl
  have hbg0 : draw_backgrounds_pass ex_game_err false = [] := rfl
  have hvw : ex_game_err.views_enabled = false := rfl
  have hsc : scene_body ex_game_err [ex_I1] [] = ([], some (Failure.gml ⟨"boom"⟩)) := by
    simp only [scene_body, hd]
  have hdv : draw_view ex_game_err 0 0 ex_game_err.room_width
      ex_game_err.room_height 0 0 ex_game_err.room_width
      ex_game_err.room_height 0 =
      ([Action.set_view 640 480 640 480 0 0 640 480 0 0 0 640 480],
       some (Failure.gml ⟨"boom"⟩)) := by
    simp only [draw_view, hsort1, hsort2, hsc, hbg0]
    rfl
  have h : Game.draw ex_game_err =
      ([Action.set_view 640 480 640 480 0 0 640 480 0 0 0 640 480],
       some (Failure.gml ⟨"boom"⟩)) := by
    simp only [Game.draw, hvw, Bool.false_eq_true, if_false, hdv]
  rw [h]
  exact ⟨rfl, rfl, rfl⟩

/-- Helper: measuring one normal character (not `'#'`, not an escape lead)
whose glyph resolves runs exactly one wrap-check-and-advance step. -/
theorem gss_loop_cons_normal (font : Font) (lh : ℕ) (mw : Option ℕ)
    (c : Char) (rest : List Char) (width height clw : ℕ) (ch : FontChar)
    (h1 : c ≠ '#') (h2 : c ≠ '\\') (h3 : font.get_char c.toNat = some ch) :
    gss_loop font lh mw (c :: rest) width height clw =
      gss_loop font lh mw rest (gss_step lh mw ch width height clw).1
        (gss_step lh mw ch width height clw).2.1
        (gss_step lh mw ch width height clw).2.2 := by
  rw [gss_loop.eq_def]
  split <;> simp_all

/-- Helper: drawing one normal character whose glyph resolves emits exactly
one wrap-check-emit-advance step. -/
theorem ds_loop_cons_normal (font : Font) (colour : ℕ) (alpha : ℚ) (lh : ℤ)
    (mw : Option ℕ) (start_x : ℤ) (c : Char) (rest : List Char) (cx cy : ℤ)
    (ch : FontChar) (h1 : c ≠ '#') (h2 : c ≠ '\\')
    (h3 : font.get_char c.toNat = some ch) :
    ds_loop font colour alpha lh mw start_x (c :: rest) cx cy =
      (ds_emit font colour alpha lh mw start_x ch cx cy).1 ::
        ds_loop font colour alpha lh mw start_x rest
          (ds_emit font colour alpha lh mw start_x ch cx cy).2.1
          (ds_emit font colour alpha lh mw start_x ch cx cy).2.2 := by
  rw [ds_loop.eq_def]
  split <;> simp_all

/-- Helper: the wrapping `i32` cast is the identity below 2³¹. -/
theorem as_i32_small (n : ℤ) (h0 : 0 ≤ n) (h1 : n < 2 ^ 31) : as_i32 n = n := by
  unfold as_i32 i64_low32_as_i32
  have h2 : n % 2 ^ 32 = n := by omega
  rw [h2, if_pos h1]

/-- C7: in both text operations a line wraps before a character exactly
when `current_line_width + character.width` exceeds `max_width` and the
current line is non-empty (so a lone over-wide character on a fresh line
stays), and a committed character advances the cursor by
`character.distance`, not `character.width`.  The concrete instances show:
the "AAA" wrap at 25, the over-wide single character kept on its line, and
the width/distance asymmetry ("AA" with widths 10 but distances 12 stays
on one line at `max_width = 22` yet reports width 24, and wraps at 21). -/
theorem C7_wrap_condition :
    (∀ (font : Font) (lh m : ℕ) (c : Char) (rest : List Char)
        (width height clw : ℕ) (ch : FontChar),
      c ≠ '#' → c ≠ '\\' → font.get_char c.toNat = some ch →
      gss_loop font lh (some m) (c :: rest) width height clw =
        if clw + ch.width > m ∧ clw ≠ 0 then
          gss_loop font lh (some m) rest (if clw > width then clw else width)
            (height + lh) ch.distance
        else
          gss_loop font lh (some m) rest width height (clw + ch.distance)) ∧
    (∀ (font : Font) (colour : ℕ) (alpha : ℚ) (lh : ℤ) (m : ℕ)
        (start_x : ℤ) (c : Char) (rest : List Char) (cx cy : ℤ) (ch : FontChar),
      c ≠ '#' → c ≠ '\\' → font.get_char c.toNat = some ch →
      ds_loop font colour alpha lh (some m) start_x (c :: rest) cx cy =
        if as_u32 (cx - start_x) + ch.width > m ∧ as_u32 (cx - start_x) ≠ 0 then
          Action.draw_sprite_partial font.atlas_ref ch.x ch.y ch.width ch.height
              (((ch.offset : ℤ) + start_x : ℤ) : ℚ) ((cy + lh : ℤ) : ℚ) 1 1 0
              (as_i32 colour) alpha ::
            ds_loop font colour alpha lh (some m) start_x rest
              (start_x + (ch.distance : ℤ)) (cy + lh)
        else
          Action.draw_sprite_partial font.atlas_ref ch.x ch.y ch.width ch.height
              (((ch.offset : ℤ) + cx : ℤ) : ℚ) ((cy : ℤ) : ℚ) 1 1 0
              (as_i32 colour) alpha ::
            ds_loop font colour alpha lh (some m) start_x rest
              (cx + (ch.distance : ℤ)) cy) ∧
    get_string_size ex_font_wrap ("AAA".toList) (some 16) (some 25) = (20, 32) ∧
    get_string_size ex_font_wrap ("A".toList) (some 16) (some 5) = (10, 16) ∧
    get_string_size ex_font ("AA".toList) none (some 22) = (24, 16) ∧
    get_string_size ex_font ("AA".toList) none (some 21) = (12, 32) := by
  refine ⟨?_, ?_, rfl, rfl, rfl, rfl⟩
  · intro font lh m c rest width height clw ch h1 h2 h3
    rw [gss_loop_cons_normal font lh (some m) c rest width height clw ch h1 h2 h3]
    by_cases hc : clw + ch.width > m ∧ clw ≠ 0
    · simp only [gss_step, if_pos hc]
    · simp only [gss_step, if_neg hc]
  · intro font colour alpha lh m start_x c rest cx cy ch h1 h2 h3
    rw [ds_loop_cons_normal font colour alpha lh (some m) start_x c rest cx cy ch
      h1 h2 h3]
    by_cases hc : as_u32 (cx - start_x) + ch.width > m ∧ as_u32 (cx - start_x) ≠ 0
    · simp only [ds_emit, ds_wrap, if_pos hc]
    · simp only [ds_emit, ds_wrap, if_neg hc]

/-- C7 witness: the measurement step law applied at a line of width 20 and
an `A` of width 10 against `max_width = 25`. -/
theorem C7_wrap_condition_witness :
    gss_loop ex_font_wrap 16 (some 25) ['A'] 0 0 20 =
      if 20 + 10 > 25 ∧ (20 : ℕ) ≠ 0 then
        gss_loop ex_font_wrap 16 (some 25) [] (if 20 > 0 then 20 else 0) (0 + 16) 10
      else gss_loop ex_font_wrap 16 (some 25) [] 0 0 (20 + 10) :=
  C7_wrap_condition.1 ex_font_wrap 16 25 'A' [] 0 0 20 ⟨0, 0, 10, 12, 0, 10⟩
    (by decide) (by decide) rfl

/-- C8: measuring `"AB#C"` with the example font (no explicit line height,
no max width) gives width 22 and height 32 — `'#'` commits the line
without a glyph, the line height is inferred from the `'M'` glyph, the
width is the largest committed sum of distances, and a final line is
always committed; with no `'M'` glyph the inferred line height is 0. -/
theorem C8_measure_example :
    get_string_size ex_font ("AB#C".toList) none none = (22, 32) ∧
    get_string_size ex_font_noM ("A".toList) none none = (12, 0) :=
  ⟨rfl, rfl⟩

/-- C9: alignment anchoring — `(Left, Top)` keeps the raw anchor without
consulting any measurement; every other combination measures once with
`line_height = none, max_width = none` (even when the draw call itself has
a max width) and shifts by `−W/2`/`−W` and `−H/2`/`−H`; with
`(Right, Bottom)` the first emitted glyph lands at
`(x − W + character.offset, y − H)`. -/
theorem C9_alignment :
    (∀ (font : Font) (s : List Char) (x y : ℤ),
      align_cursor font Halign.left Valign.top x y s = (x, y)) ∧
    (∀ (font : Font) (s : List Char) (x y : ℤ) (w h : ℕ),
      get_string_size font s none none = (w, h) →
      (w : ℤ) < 2 ^ 31 → (h : ℤ) < 2 ^ 31 →
      align_cursor font Halign.middle Valign.middle x y s =
        (x - Int.tdiv (w : ℤ) 2, y - Int.tdiv (h : ℤ) 2) ∧
      align_cursor font Halign.right Valign.bottom x y s =
        (x - (w : ℤ), y - (h : ℤ))) ∧
    (∀ (font : Font) (c : Char) (rest : List Char) (ch : FontChar)
        (colour : ℕ) (alpha : ℚ) (x y : ℤ) (lh mw : Option ℕ) (w h : ℕ),
      c ≠ '#' → c ≠ '\\' → font.get_char c.toNat = some ch →
      get_string_size font (c :: rest) none none = (w, h) →
      (w : ℤ) < 2 ^ 31 → (h : ℤ) < 2 ^ 31 →
      (draw_string font Halign.right Valign.bottom colour alpha x y (c :: rest)
          lh mw).head? =
        some (Action.draw_sprite_partial font.atlas_ref ch.x ch.y ch.width
          ch.height ((x - (w : ℤ) + (ch.offset : ℤ) : ℤ) : ℚ)
          ((y - (h : ℤ) : ℤ) : ℚ) 1 1 0 (as_i32 colour) alpha)) := by
  have hmid : ∀ (font : Font) (s : List Char) (x y : ℤ) (w h : ℕ),
      get_string_size font s none none = (w, h) →
      (w : ℤ) < 2 ^ 31 → (h : ℤ) < 2 ^ 31 →
      align_cursor font Halign.middle Valign.middle x y s =
        (x - Int.tdiv (w : ℤ) 2, y - Int.tdiv (h : ℤ) 2) := by
    intro font s x y w h hgss hw hh
    simp only [align_cursor]
    rw [hgss, as_i32_small (w : ℤ) (Int.ofNat_nonneg w) hw,
      as_i32_small (h : ℤ) (Int.ofNat_nonneg h) hh]
  have hrb : ∀ (font : Font) (s : List Char) (x y : ℤ) (w h : ℕ),
      get_string_size font s none none = (w, h) →
      (w : ℤ) < 2 ^ 31 → (h : ℤ) < 2 ^ 31 →
      align_cursor font Halign.right Valign.bottom x y s =
        (x - (w : ℤ), y - (h : ℤ)) := by
    intro font s x y w h hgss hw hh
    simp only [align_cursor]
    rw [hgss, as_i32_small (w : ℤ) (Int.ofNat_nonneg w) hw,
      as_i32_small (h : ℤ) (Int.ofNat_nonneg h) hh]
  refine ⟨fun font s x y => rfl, ?_, ?_⟩
  · intro font s x y w h hgss hw hh
    exact ⟨hmid font s x y w h hgss hw hh, hrb font s x y w h hgss hw hh⟩
  · intro font c rest ch colour alpha x y lh mw w h h1 h2 h3 hgss hw hh
    have hac := hrb font (c :: rest) x y w h hgss hw hh
    simp only [draw_string, hac]
    rw [ds_loop_cons_normal font colour alpha _ mw (x - (w : ℤ)) c rest
      (x - (w : ℤ)) (y - (h : ℤ)) ch h1 h2 h3]
    have hzero : as_u32 ((x - (w : ℤ)) - (x - (w : ℤ))) = 0 := by
      simp [as_u32]
    have hoff : (ch.offset : ℤ) + (x - (w : ℤ)) = x - (w : ℤ) + (ch.offset : ℤ) := by
      ring
    cases mw with
    | none =>
      simp only [ds_emit, ds_wrap, List.head?_cons, hoff]
    | some m =>
      have hcond : ¬ (as_u32 ((x - (w : ℤ)) - (x - (w : ℤ))) + ch.width > m ∧
          as_u32 ((x - (w : ℤ)) - (x - (w : ℤ))) ≠ 0) := by
        rw [hzero]
        simp
      simp only [ds_emit, ds_wrap, if_neg hcond, List.head?_cons, hoff]

/-- C9 witness: the anchoring laws applied at the example font and the
one-character string `"A"` (measured size `(12, 16)`), anchored at
`(100, 50)`. -/
theorem C9_alignment_witness :
    align_cursor ex_font Halign.left Valign.top 100 50 ['A'] = (100, 50) ∧
    align_cursor ex_font Halign.middle Valign.middle 100 50 ['A'] =
      (100 - Int.tdiv 12 2, 50 - Int.tdiv 16 2) ∧
    align_cursor ex_font Halign.right Valign.bottom 100 50 ['A'] =
      (100 - 12, 50 - 16) ∧
    (draw_string ex_font Halign.right Valign.bottom 0 1 100 50 ['A']
        none none).head? =
      some (Action.draw_sprite_partial 400 0 0 10 13 ((100 - 12 + 1 : ℤ) : ℚ)
        ((50 - 16 : ℤ) : ℚ) 1 1 0 (as_i32 0) 1) :=
  ⟨C9_alignment.1 ex_font ['A'] 100 50,
   (C9_alignment.2.1 ex_font ['A'] 100 50 12 16 rfl (by decide) (by decide)).1,
   (C9_alignment.2.1 ex_font ['A'] 100 50 12 16 rfl (by decide) (by decide)).2,
   C9_alignment.2.2 ex_font 'A' [] ⟨0, 0, 10, 13, 1, 12⟩ 0 1 100 50 none none
     12 16 (by decide) (by decide) rfl rfl (by decide) (by decide)⟩

/-- C10: both text operations require a current draw font: with
`draw_font` absent, `get_string_size` and `draw_string` panic (the model's
distinguished failure for the `unwrap` of `None`) rather than silently
doing nothing or returning a GML error. -/
theorem C10_draw_font_required :
    (∀ (g : Game) (s : List Char) (lh mw : Option ℕ), g.draw_font = none →
      Game.get_string_size g s lh mw = Except.error Failure.panic) ∧
    (∀ (g : Game) (x y : ℤ) (s : List Char) (lh mw : Option ℕ),
      g.draw_font = none →
      Game.draw_string g x y s lh mw = Except.error Failure.panic) := by
  constructor
  · intro g s lh mw h
    unfold Game.get_string_size
    rw [h]
  · intro g x y s lh mw h
    unfold Game.draw_string
    rw [h]

/-- C10 witness: the example game carries no draw font, and both
operations panic on it. -/
theorem C10_draw_font_required_witness :
    Game.get_string_size ex_game [] none none = Except.error Failure.panic ∧
    Game.draw_string ex_game 0 0 [] none none = Except.error Failure.panic :=
  ⟨C10_draw_font_required.1 ex_game [] none none rfl,
   C10_draw_font_required.2 ex_game 0 0 [] none none rfl⟩

end GM8
